import Mathlib

/-!
# Verification of the flocking particle system

A shallow embedding of the flocking `ParticleSystem` (the scattering variant in
`src/src/ParticleSystem.ts`) together with the 2D vector utility it uses.
Numbers are modelled as real numbers; `Math.random()` draws are passed in
explicitly as values in `[0, 1)`, and `p5.deltaTime` (milliseconds) is an
explicit argument of `moveAll`.
-/

noncomputable section

/-- A 2D vector with real components. -/
structure Vector2D where
  x : ℝ
  y : ℝ

namespace Vector2D

@[ext] theorem ext' {v w : Vector2D} (hx : v.x = w.x) (hy : v.y = w.y) : v = w := by
  cases v; cases w; simp_all

/-- The zero vector, `new Vector2D()`. -/
def zero : Vector2D := ⟨0, 0⟩

/-- Method `add(v)`: componentwise sum. -/
def add (v w : Vector2D) : Vector2D := ⟨v.x + w.x, v.y + w.y⟩

/-- Method `sub(v)`: componentwise difference. -/
def sub (v w : Vector2D) : Vector2D := ⟨v.x - w.x, v.y - w.y⟩

/-- Method `mult(s)`: scale both components by `s`. -/
def mult (v : Vector2D) (s : ℝ) : Vector2D := ⟨v.x * s, v.y * s⟩

/-- Method `div(s)`: divide both components by `s`. -/
def div (v : Vector2D) (s : ℝ) : Vector2D := ⟨v.x / s, v.y / s⟩

/-- Method `copy()`: an independent value copy (value semantics make this the identity). -/
def copy (v : Vector2D) : Vector2D := ⟨v.x, v.y⟩

/-- Method `distSq(other)`: squared Euclidean distance. -/
def distSq (v w : Vector2D) : ℝ := (v.x - w.x) ^ 2 + (v.y - w.y) ^ 2

/-- Squared magnitude of a vector. -/
def magSq (v : Vector2D) : ℝ := v.x ^ 2 + v.y ^ 2

/-- Magnitude (Euclidean norm) of a vector. -/
def mag (v : Vector2D) : ℝ := Real.sqrt v.magSq

/-- Modelled from the spec: `Vector2D.limit(min, max)` lives in `src/Vector.ts`,
which is not present under `src/`; §4.1 specifies it as clamping the magnitude
into `[min, max]` while preserving direction, with the zero-magnitude fallback
"leave at zero" (scaling a zero vector leaves it zero, since `x / 0 = 0` here). -/
def limit (v : Vector2D) (lo hi : ℝ) : Vector2D :=
  if v.mag < lo then v.mult (lo / v.mag)
  else if v.mag > hi then v.mult (hi / v.mag)
  else v

instance : Zero Vector2D := ⟨Vector2D.zero⟩

instance : Add Vector2D := ⟨Vector2D.add⟩

instance : AddCommMonoid Vector2D where
  add_assoc := by
    intro a b c; show add (add a b) c = add a (add b c)
    simp only [add]; exact ext' (by ring) (by ring)
  zero_add := by intro a; show add zero a = a; simp [add, zero]
  add_zero := by intro a; show add a zero = a; simp [add, zero]
  add_comm := by
    intro a b; show add a b = add b a
    simp only [add]; exact ext' (by ring) (by ring)
  nsmul := nsmulRec

theorem add_def (v w : Vector2D) : v.add w = v + w := rfl

theorem zero_def : (0 : Vector2D) = Vector2D.zero := rfl

@[simp] theorem copy_eq (v : Vector2D) : v.copy = v := rfl

@[simp] theorem zero_x : (0 : Vector2D).x = 0 := rfl

@[simp] theorem zero_y : (0 : Vector2D).y = 0 := rfl

@[simp] theorem add_x (v w : Vector2D) : (v + w).x = v.x + w.x := rfl

@[simp] theorem add_y (v w : Vector2D) : (v + w).y = v.y + w.y := rfl

end Vector2D

/-- A single particle (`Particle` in `ParticleSystem.ts`): position, velocity,
and the lazy-deletion flag, initialized to `false` on construction. -/
structure Particle where
  position : Vector2D
  velocity : Vector2D
  markForRemove : Bool

instance : Inhabited Particle := ⟨⟨Vector2D.zero, Vector2D.zero, false⟩⟩

/-- The `ParticleSystem`: the tunable scalar parameters, the particle list, and
the internal scatter-timer state.  The canvas dimensions are the `width` and
`height` fields. -/
structure ParticleSystem where
  minVelocity : ℝ
  maxVelocity : ℝ
  viewRange : ℝ
  minDistance : ℝ
  separationFactor : ℝ
  cohesionFactor : ℝ
  alignmentFactor : ℝ
  wallAvoidFactor : ℝ
  scatterChance : ℝ
  timeScale : ℝ
  width : ℝ
  height : ℝ
  wallMargin : ℝ
  particles : List Particle
  intervalTimer : ℝ
  scattering : Bool

namespace ParticleSystem

/-- Getter `leftEdge`. -/
def leftEdge (sys : ParticleSystem) : ℝ := sys.wallMargin

/-- Getter `rightEdge`. -/
def rightEdge (sys : ParticleSystem) : ℝ := sys.width - sys.wallMargin

/-- Getter `topEdge`. -/
def topEdge (sys : ParticleSystem) : ℝ := sys.wallMargin

/-- Getter `bottomEdge`. -/
def bottomEdge (sys : ParticleSystem) : ℝ := sys.height - sys.wallMargin

/-- Method `numParticles()`. -/
def numParticles (sys : ParticleSystem) : ℕ := sys.particles.length

end ParticleSystem

/-- Source function `randBool(bias)` returns `Math.random() < bias`; the
random draw `r` is passed explicitly.  (Named inside the `ParticleSystem` namespace because the
identifier `randBool` is taken by the ambient library.) -/
def ParticleSystem.randBool (r : ℝ) (bias : ℝ) : Bool := decide (r < bias)

namespace Particle

/-- The view-range test used to build `nearbyParticles`:
`this.position.distSq(p.position) < Math.pow(this.system.viewRange, 2)`. -/
def inView (self : Particle) (sys : ParticleSystem) (p : Particle) : Prop :=
  self.position.distSq p.position < sys.viewRange ^ 2

instance (self : Particle) (sys : ParticleSystem) (p : Particle) :
    Decidable (self.inView sys p) := by unfold Particle.inView; infer_instance

/-- The separation ("too close") test:
`this.position.distSq(particle.position) < Math.pow(this.system.minDistance, 2)`. -/
def tooClose (self : Particle) (sys : ParticleSystem) (p : Particle) : Prop :=
  self.position.distSq p.position < sys.minDistance ^ 2

instance (self : Particle) (sys : ParticleSystem) (p : Particle) :
    Decidable (self.tooClose sys p) := by unfold Particle.tooClose; infer_instance

/-- The list `nearbyParticles`: the live list (`getAll()`), minus the particle itself
(JS filters by reference, `p !== this`; the caller strips `self` by index and
passes the remainder as `others`), filtered by the view-range test. -/
def nearbyOf (sys : ParticleSystem) (others : List Particle) (self : Particle) :
    List Particle :=
  others.filter (fun p => decide (self.inView sys p))

end Particle

/-- The loop accumulator of `move`: `separationVector`, `alignmentVector`,
`averageNearbyPosition` and `numConsidered`. -/
structure FlockAccum where
  separationVector : Vector2D
  alignmentVector : Vector2D
  averageNearbyPosition : Vector2D
  numConsidered : ℕ

/-- One iteration of the `for (const particle of nearbyParticles)` loop. -/
def flockStep (sys : ParticleSystem) (self : Particle) (acc : FlockAccum)
    (particle : Particle) : FlockAccum :=
  if self.tooClose sys particle then
    { acc with
        separationVector :=
          acc.separationVector.add (self.position.copy.sub particle.position) }
  else
    { acc with
        numConsidered := acc.numConsidered + 1
        averageNearbyPosition :=
          acc.averageNearbyPosition.add (particle.position.copy.sub self.position)
        alignmentVector := acc.alignmentVector.add particle.velocity }

/-- The whole accumulation loop, starting from freshly constructed vectors and
`numConsidered = 0`. -/
def flockAccum (sys : ParticleSystem) (self : Particle) (nearby : List Particle) :
    FlockAccum :=
  nearby.foldl (flockStep sys self) ⟨Vector2D.zero, Vector2D.zero, Vector2D.zero, 0⟩

namespace Particle

/-- The velocity after the separation / alignment / cohesion terms have been
applied (`// apply everything to our velocity` up to the wall-avoidance block).
When `scattering` is set, the cohesion factor is multiplied by `-1`. -/
def flockedVelocity (self : Particle) (sys : ParticleSystem)
    (others : List Particle) (dt : ℝ) (scattering : Bool) : Vector2D :=
  let acc := flockAccum sys self (nearbyOf sys others self)
  let v1 := self.velocity.add (acc.separationVector.mult (sys.separationFactor * dt))
  if acc.numConsidered > 0 then
    (v1.add ((acc.alignmentVector.div (acc.numConsidered : ℝ)).mult
        (sys.alignmentFactor * dt))).add
      ((acc.averageNearbyPosition.div (acc.numConsidered : ℝ)).mult
        ((if scattering then sys.cohesionFactor * (-1) else sys.cohesionFactor) * dt))
  else v1

/-- The velocity after the wall-avoidance block (`// avoid walls if necessary`):
an internal ×1000 scale is applied to `wallAvoidFactor`, and an else-if makes at
most one horizontal and one vertical correction apply. -/
def steeredVelocity (self : Particle) (sys : ParticleSystem)
    (others : List Particle) (dt : ℝ) (scattering : Bool) : Vector2D :=
  let v := self.flockedVelocity sys others dt scattering
  let wallAvoidFactor := sys.wallAvoidFactor * 1000
  ⟨if self.position.x < sys.leftEdge then v.x + wallAvoidFactor * dt
    else if self.position.x > sys.rightEdge then v.x - wallAvoidFactor * dt
    else v.x,
   if self.position.y < sys.topEdge then v.y + wallAvoidFactor * dt
    else if self.position.y > sys.bottomEdge then v.y - wallAvoidFactor * dt
    else v.y⟩

/-- The velocity after `this.velocity.limit(minVelocity, maxVelocity)`. -/
def limitedVelocity (self : Particle) (sys : ParticleSystem)
    (others : List Particle) (dt : ℝ) (scattering : Bool) : Vector2D :=
  (self.steeredVelocity sys others dt scattering).limit sys.minVelocity sys.maxVelocity

/-- The integrated position `this.position.add(this.velocity.copy().mult(dt))`. -/
def integratedPosition (self : Particle) (sys : ParticleSystem)
    (others : List Particle) (dt : ℝ) (scattering : Bool) : Vector2D :=
  self.position.add ((self.limitedVelocity sys others dt scattering).copy.mult dt)

end Particle

/-- One axis of the `// bounce off of walls` block: clamp the position into
`[0, hi]`, and negate the velocity component only if it still points outward
across the crossed boundary.  Returns (position, velocity) for that axis. -/
def bounce1D (pos vel hi : ℝ) : ℝ × ℝ :=
  if pos < 0 then (0, if vel < 0 then vel * (-1) else vel)
  else if pos > hi then (hi, if vel > 0 then vel * (-1) else vel)
  else (pos, vel)

/-- Method `Particle.move(dt, scattering)`: flocking steering, wall avoidance, speed
clamp, integration, and the boundary bounce.  `others` is the live particle
list without the moving particle itself. -/
def Particle.move (self : Particle) (sys : ParticleSystem)
    (others : List Particle) (dt : ℝ) (scattering : Bool) : Particle :=
  let vel := self.limitedVelocity sys others dt scattering
  let pos := self.integratedPosition sys others dt scattering
  let bx := bounce1D pos.x vel.x sys.width
  let bY := bounce1D pos.y vel.y sys.height
  { position := ⟨bx.1, bY.1⟩
    velocity := ⟨bx.2, bY.2⟩
    markForRemove := self.markForRemove }

/-- The scatter-timer update at the top of `moveAll`: decrement the timer by
`dt`; on rollover (`intervalTimer <= 0`) reset it to `1.5` and redraw the
`scattering` flag with `randBool(scatterChance)`.  Returns the new
(timer, scattering) pair. -/
def scatterUpdate (timer dt chance r : ℝ) (old : Bool) : ℝ × Bool :=
  let t := timer - dt
  if t ≤ 0 then (1.5, ParticleSystem.randBool r chance) else (t, old)

/-- One step of the sequential update loop `for (let p of this.particles)`:
particle `i` moves against the *current* list (earlier particles already
updated), excluding itself (`p !== this` ⇒ the list without index `i`), and is
updated in place. -/
def moveStep (sys : ParticleSystem) (dt : ℝ) (scattering : Bool)
    (ps : List Particle) (i : ℕ) : List Particle :=
  ps.set i ((ps.getD i default).move sys (ps.eraseIdx i) dt scattering)

/-- The whole sequential update loop over all particle indices in order. -/
def moveLoop (sys : ParticleSystem) (dt : ℝ) (scattering : Bool)
    (ps : List Particle) : List Particle :=
  (List.range ps.length).foldl (moveStep sys dt scattering) ps

/-- Method `ParticleSystem.moveAll()`: `dt = deltaTime / 1000` damped by `0.75`, the
scatter-timer update, the per-particle updates with `dt * timeScale`, and the
deferred removal filter.  `deltaTime` (ms) and the frame's random draw `r` are
explicit arguments. -/
def ParticleSystem.moveAll (sys : ParticleSystem) (deltaTime r : ℝ) :
    ParticleSystem :=
  let dt := deltaTime / 1000 * 0.75
  let st := scatterUpdate sys.intervalTimer dt sys.scatterChance r sys.scattering
  let sys' := { sys with intervalTimer := st.1, scattering := st.2 }
  let moved := moveLoop sys' (dt * sys.timeScale) st.2 sys.particles
  { sys' with particles := moved.filter (fun p => !p.markForRemove) }

/-- Method `ParticleSystem.removeParticle()`: splice out the element at index
`Math.floor(Math.random() * this.particles.length)`; the random draw `r` is
explicit.  On an empty list the index is `0` and nothing is removed. -/
def ParticleSystem.removeParticle (sys : ParticleSystem) (r : ℝ) : ParticleSystem :=
  { sys with particles := sys.particles.eraseIdx ⌊r * (sys.particles.length : ℝ)⌋₊ }

/-! ## Basic lemmas about the vector operations -/

namespace Vector2D

@[simp] theorem mk_x (a b : ℝ) : (Vector2D.mk a b).x = a := rfl

@[simp] theorem mk_y (a b : ℝ) : (Vector2D.mk a b).y = b := rfl

@[simp] theorem add_x' (v w : Vector2D) : (v.add w).x = v.x + w.x := rfl

@[simp] theorem add_y' (v w : Vector2D) : (v.add w).y = v.y + w.y := rfl

@[simp] theorem sub_x (v w : Vector2D) : (v.sub w).x = v.x - w.x := rfl

@[simp] theorem sub_y (v w : Vector2D) : (v.sub w).y = v.y - w.y := rfl

@[simp] theorem mult_x (v : Vector2D) (s : ℝ) : (v.mult s).x = v.x * s := rfl

@[simp] theorem mult_y (v : Vector2D) (s : ℝ) : (v.mult s).y = v.y * s := rfl

@[simp] theorem div_x (v : Vector2D) (s : ℝ) : (v.div s).x = v.x / s := rfl

@[simp] theorem div_y (v : Vector2D) (s : ℝ) : (v.div s).y = v.y / s := rfl

@[simp] theorem zero_mk_x : Vector2D.zero.x = 0 := rfl

@[simp] theorem zero_mk_y : Vector2D.zero.y = 0 := rfl

theorem magSq_nonneg (v : Vector2D) : 0 ≤ v.magSq := by
  unfold magSq; positivity

theorem mag_nonneg (v : Vector2D) : 0 ≤ v.mag := Real.sqrt_nonneg _

theorem mag_sq (v : Vector2D) : v.mag ^ 2 = v.magSq :=
  Real.sq_sqrt (magSq_nonneg v)

theorem mag_pos (v : Vector2D) (h : v.magSq ≠ 0) : 0 < v.mag :=
  Real.sqrt_pos.mpr (lt_of_le_of_ne (magSq_nonneg v) (Ne.symm h))

theorem magSq_mult (v : Vector2D) (s : ℝ) : (v.mult s).magSq = s ^ 2 * v.magSq := by
  simp only [magSq, mult_x, mult_y]; ring

theorem magSq_eq_zero (v : Vector2D) (h : v.magSq = 0) : v.x = 0 ∧ v.y = 0 := by
  unfold magSq at h
  constructor <;> nlinarith [sq_nonneg v.x, sq_nonneg v.y]

/-- The clamp is the identity when the magnitude is already in range. -/
theorem limit_id (v : Vector2D) (lo hi : ℝ)
    (h1 : lo ≤ v.mag) (h2 : v.mag ≤ hi) : v.limit lo hi = v := by
  unfold limit
  rw [if_neg (by linarith), if_neg (by linarith)]

/-- The zero-magnitude fallback: a zero vector is left at zero by the clamp. -/
theorem limit_of_magSq_zero (v : Vector2D) (lo hi : ℝ)
    (h0 : v.magSq = 0) (hlo : 0 < lo) : v.limit lo hi = Vector2D.zero := by
  obtain ⟨hx, hy⟩ := magSq_eq_zero v h0
  have hm : v.mag = 0 := by unfold mag; rw [h0, Real.sqrt_zero]
  unfold limit
  rw [if_pos (by rw [hm]; exact hlo)]
  ext <;> simp [hx, hy]

/-- The squared magnitude after the clamp lies in `[lo ^ 2, hi ^ 2]`, provided
the input has nonzero magnitude. -/
theorem limit_magSq (v : Vector2D) (lo hi : ℝ)
    (hlo : 0 ≤ lo) (hhi : lo ≤ hi) (hnz : v.magSq ≠ 0) :
    lo ^ 2 ≤ (v.limit lo hi).magSq ∧ (v.limit lo hi).magSq ≤ hi ^ 2 := by
  have hmpos : 0 < v.mag := mag_pos v hnz
  have hm2 : v.mag ^ 2 = v.magSq := mag_sq v
  have hscale : ∀ s : ℝ, (v.mult (s / v.mag)).magSq = s ^ 2 := by
    intro s
    rw [magSq_mult, div_pow, ← hm2]
    field_simp
  unfold limit
  split_ifs with h1 h2
  · rw [hscale]
    exact ⟨le_refl _, by nlinarith⟩
  · rw [hscale]
    exact ⟨by nlinarith, le_refl _⟩
  · push_neg at h1 h2
    rw [← hm2]
    exact ⟨by nlinarith, by nlinarith⟩

/-- The magnitude after the clamp lies in `[lo, hi]`, provided the input has
nonzero magnitude. -/
theorem limit_mag (v : Vector2D) (lo hi : ℝ)
    (hlo : 0 ≤ lo) (hhi : lo ≤ hi) (hnz : v.magSq ≠ 0) :
    lo ≤ (v.limit lo hi).mag ∧ (v.limit lo hi).mag ≤ hi := by
  obtain ⟨h1, h2⟩ := limit_magSq v lo hi hlo hhi hnz
  constructor
  · calc lo = Real.sqrt (lo ^ 2) := (Real.sqrt_sq hlo).symm
      _ ≤ (v.limit lo hi).mag := Real.sqrt_le_sqrt h1
  · calc (v.limit lo hi).mag ≤ Real.sqrt (hi ^ 2) := Real.sqrt_le_sqrt h2
      _ = hi := Real.sqrt_sq (le_trans hlo hhi)

end Vector2D

/-! ## Lemmas about the boundary bounce -/

theorem bounce1D_fst_bounds (pos vel hi : ℝ) (h : 0 ≤ hi) :
    0 ≤ (bounce1D pos vel hi).1 ∧ (bounce1D pos vel hi).1 ≤ hi := by
  unfold bounce1D
  split_ifs <;> simp_all

theorem bounce1D_snd_sq (pos vel hi : ℝ) :
    ((bounce1D pos vel hi).2) ^ 2 = vel ^ 2 := by
  unfold bounce1D
  split_ifs <;> simp only [] <;> ring

theorem bounce1D_id (pos vel hi : ℝ) (h1 : 0 ≤ pos) (h2 : pos ≤ hi) :
    bounce1D pos vel hi = (pos, vel) := by
  unfold bounce1D
  rw [if_neg (by linarith), if_neg (by linarith)]

theorem bounce1D_low (pos vel hi : ℝ) (h : pos < 0) :
    bounce1D pos vel hi = (0, if vel < 0 then vel * (-1) else vel) := by
  unfold bounce1D
  rw [if_pos h]

theorem bounce1D_high (pos vel hi : ℝ) (h1 : ¬ pos < 0) (h2 : pos > hi) :
    bounce1D pos vel hi = (hi, if vel > 0 then vel * (-1) else vel) := by
  unfold bounce1D
  rw [if_neg h1, if_pos h2]

/-! ## Unfolding lemmas for `Particle.move` -/

theorem Particle.move_position_x (self : Particle) (sys : ParticleSystem)
    (others : List Particle) (dt : ℝ) (scattering : Bool) :
    (self.move sys others dt scattering).position.x
      = (bounce1D (self.integratedPosition sys others dt scattering).x
          (self.limitedVelocity sys others dt scattering).x sys.width).1 := rfl

theorem Particle.move_position_y (self : Particle) (sys : ParticleSystem)
    (others : List Particle) (dt : ℝ) (scattering : Bool) :
    (self.move sys others dt scattering).position.y
      = (bounce1D (self.integratedPosition sys others dt scattering).y
          (self.limitedVelocity sys others dt scattering).y sys.height).1 := rfl

theorem Particle.move_velocity_x (self : Particle) (sys : ParticleSystem)
    (others : List Particle) (dt : ℝ) (scattering : Bool) :
    (self.move sys others dt scattering).velocity.x
      = (bounce1D (self.integratedPosition sys others dt scattering).x
          (self.limitedVelocity sys others dt scattering).x sys.width).2 := rfl

theorem Particle.move_velocity_y (self : Particle) (sys : ParticleSystem)
    (others : List Particle) (dt : ℝ) (scattering : Bool) :
    (self.move sys others dt scattering).velocity.y
      = (bounce1D (self.integratedPosition sys others dt scattering).y
          (self.limitedVelocity sys others dt scattering).y sys.height).2 := rfl

theorem Particle.move_markForRemove (self : Particle) (sys : ParticleSystem)
    (others : List Particle) (dt : ℝ) (scattering : Bool) :
    (self.move sys others dt scattering).markForRemove = self.markForRemove := rfl

/-! ## Characterizing the accumulation loop by filtered sums -/

/-- The too-close neighbors (the `if` branch of the loop). -/
def tooCloseOf (sys : ParticleSystem) (self : Particle) (l : List Particle) :
    List Particle :=
  l.filter (fun p => decide (self.tooClose sys p))

/-- The cohesion-eligible neighbors (the `else` branch of the loop). -/
def consideredOf (sys : ParticleSystem) (self : Particle) (l : List Particle) :
    List Particle :=
  l.filter (fun p => !decide (self.tooClose sys p))

/-- The separation contributions `this.position - particle.position`. -/
def sepTerms (sys : ParticleSystem) (self : Particle) (l : List Particle) :
    List Vector2D :=
  (tooCloseOf sys self l).map (fun p => self.position.copy.sub p.position)

/-- The alignment contributions `particle.velocity`. -/
def alignTerms (sys : ParticleSystem) (self : Particle) (l : List Particle) :
    List Vector2D :=
  (consideredOf sys self l).map (fun p => p.velocity)

/-- The cohesion contributions `particle.position - this.position`. -/
def cohTerms (sys : ParticleSystem) (self : Particle) (l : List Particle) :
    List Vector2D :=
  (consideredOf sys self l).map (fun p => p.position.copy.sub self.position)

theorem flockStep_foldl (sys : ParticleSystem) (self : Particle) :
    ∀ (l : List Particle) (acc : FlockAccum),
    l.foldl (flockStep sys self) acc =
      ⟨acc.separationVector + (sepTerms sys self l).sum,
       acc.alignmentVector + (alignTerms sys self l).sum,
       acc.averageNearbyPosition + (cohTerms sys self l).sum,
       acc.numConsidered + (consideredOf sys self l).length⟩ := by
  intro l
  induction l with
  | nil =>
    intro acc
    simp [sepTerms, alignTerms, cohTerms, consideredOf, tooCloseOf]
  | cons p t ih =>
    intro acc
    rw [List.foldl_cons, ih]
    by_cases h : self.tooClose sys p
    · simp only [flockStep, if_pos h, sepTerms, alignTerms, cohTerms, consideredOf,
        tooCloseOf, List.filter_cons, h, decide_True, Bool.not_true, ite_true,
        Bool.false_eq_true, ite_false, List.map_cons, List.sum_cons,
        Vector2D.add_def]
      congr 1
      rw [add_assoc]
    · simp only [flockStep, if_neg h, sepTerms, alignTerms, cohTerms, consideredOf,
        tooCloseOf, List.filter_cons, h, decide_False, Bool.not_false, ite_true,
        Bool.true_eq_false, ite_false, List.map_cons, List.sum_cons,
        Vector2D.add_def, List.length_cons]
      congr 1
      · rw [add_assoc]
      · rw [add_assoc]
      · omega

theorem flockAccum_eq (sys : ParticleSystem) (self : Particle) (nearby : List Particle) :
    flockAccum sys self nearby =
      ⟨(sepTerms sys self nearby).sum,
       (alignTerms sys self nearby).sum,
       (cohTerms sys self nearby).sum,
       (consideredOf sys self nearby).length⟩ := by
  unfold flockAccum
  rw [flockStep_foldl]
  have hz : Vector2D.zero = 0 := rfl
  simp [hz]

/-! ## The nearby list -/

theorem mem_nearbyOf (sys : ParticleSystem) (others : List Particle)
    (self p : Particle) :
    p ∈ Particle.nearbyOf sys others self ↔
      p ∈ others ∧ self.position.distSq p.position < sys.viewRange ^ 2 := by
  simp [Particle.nearbyOf, List.mem_filter, Particle.inView]

theorem nearbyOf_eq_nil (sys : ParticleSystem) (others : List Particle)
    (self : Particle) (h : ∀ p ∈ others, ¬ self.inView sys p) :
    Particle.nearbyOf sys others self = [] := by
  unfold Particle.nearbyOf
  rw [List.filter_eq_nil_iff]
  intro p hp
  simpa using h p hp

/-! ## Steering of an isolated agent -/

theorem flockedVelocity_no_neighbors (self : Particle) (sys : ParticleSystem)
    (others : List Particle) (dt : ℝ) (scattering : Bool)
    (h : ∀ p ∈ others, ¬ self.inView sys p) :
    self.flockedVelocity sys others dt scattering = self.velocity := by
  unfold Particle.flockedVelocity
  rw [nearbyOf_eq_nil sys others self h]
  simp only [flockAccum, List.foldl_nil]
  simp [Vector2D.add, Vector2D.mult]

theorem steeredVelocity_isolated (self : Particle) (sys : ParticleSystem)
    (others : List Particle) (dt : ℝ) (scattering : Bool)
    (h : ∀ p ∈ others, ¬ self.inView sys p)
    (hx1 : sys.leftEdge ≤ self.position.x) (hx2 : self.position.x ≤ sys.rightEdge)
    (hy1 : sys.topEdge ≤ self.position.y) (hy2 : self.position.y ≤ sys.bottomEdge) :
    self.steeredVelocity sys others dt scattering = self.velocity := by
  unfold Particle.steeredVelocity
  rw [flockedVelocity_no_neighbors self sys others dt scattering h]
  show Vector2D.mk _ _ = _
  rw [if_neg (by linarith), if_neg (by linarith), if_neg (by linarith),
    if_neg (by linarith)]

/-! ## Integration of an isolated agent -/

theorem limitedVelocity_isolated (self : Particle) (sys : ParticleSystem)
    (others : List Particle) (dt : ℝ) (scattering : Bool)
    (h : ∀ p ∈ others, ¬ self.inView sys p)
    (hx1 : sys.leftEdge ≤ self.position.x) (hx2 : self.position.x ≤ sys.rightEdge)
    (hy1 : sys.topEdge ≤ self.position.y) (hy2 : self.position.y ≤ sys.bottomEdge)
    (hv1 : sys.minVelocity ≤ self.velocity.mag)
    (hv2 : self.velocity.mag ≤ sys.maxVelocity) :
    self.limitedVelocity sys others dt scattering = self.velocity := by
  unfold Particle.limitedVelocity
  rw [steeredVelocity_isolated self sys others dt scattering h hx1 hx2 hy1 hy2]
  exact Vector2D.limit_id _ _ _ hv1 hv2

/-- C6: a single isolated agent (no neighbor strictly within `viewRange`,
position inside the wall-margin region, speed already in
`[minVelocity, maxVelocity]`, and the integrated position staying within the
canvas) has its velocity unchanged by `move(dt)` and its position advanced by
exactly `velocity * dt`: all flocking, wall-avoidance and bounce terms
contribute zero. -/
theorem thm_C6_isolated_agent (self : Particle) (sys : ParticleSystem)
    (others : List Particle) (dt : ℝ) (scattering : Bool)
    (h : ∀ p ∈ others, ¬ self.inView sys p)
    (hx1 : sys.leftEdge ≤ self.position.x) (hx2 : self.position.x ≤ sys.rightEdge)
    (hy1 : sys.topEdge ≤ self.position.y) (hy2 : self.position.y ≤ sys.bottomEdge)
    (hv1 : sys.minVelocity ≤ self.velocity.mag)
    (hv2 : self.velocity.mag ≤ sys.maxVelocity)
    (hpx1 : 0 ≤ self.position.x + self.velocity.x * dt)
    (hpx2 : self.position.x + self.velocity.x * dt ≤ sys.width)
    (hpy1 : 0 ≤ self.position.y + self.velocity.y * dt)
    (hpy2 : self.position.y + self.velocity.y * dt ≤ sys.height) :
    (self.move sys others dt scattering).velocity = self.velocity ∧
    (self.move sys others dt scattering).position
      = self.position.add (self.velocity.mult dt) := by
  have hlim : self.limitedVelocity sys others dt scattering = self.velocity :=
    limitedVelocity_isolated self sys others dt scattering h hx1 hx2 hy1 hy2 hv1 hv2
  have hint : self.integratedPosition sys others dt scattering
      = self.position.add (self.velocity.mult dt) := by
    unfold Particle.integratedPosition
    rw [hlim, Vector2D.copy_eq]
  have hix : (self.integratedPosition sys others dt scattering).x
      = self.position.x + self.velocity.x * dt := by
    rw [hint]; simp
  have hiy : (self.integratedPosition sys others dt scattering).y
      = self.position.y + self.velocity.y * dt := by
    rw [hint]; simp
  have hbx : bounce1D (self.integratedPosition sys others dt scattering).x
      (self.limitedVelocity sys others dt scattering).x sys.width
      = ((self.integratedPosition sys others dt scattering).x,
         (self.limitedVelocity sys others dt scattering).x) :=
    bounce1D_id _ _ _ (by rw [hix]; exact hpx1) (by rw [hix]; exact hpx2)
  have hby : bounce1D (self.integratedPosition sys others dt scattering).y
      (self.limitedVelocity sys others dt scattering).y sys.height
      = ((self.integratedPosition sys others dt scattering).y,
         (self.limitedVelocity sys others dt scattering).y) :=
    bounce1D_id _ _ _ (by rw [hiy]; exact hpy1) (by rw [hiy]; exact hpy2)
  constructor
  · ext
    · rw [Particle.move_velocity_x, hbx, hlim]
    · rw [Particle.move_velocity_y, hby, hlim]
  · ext
    · rw [Particle.move_position_x, hbx, hint]
    · rw [Particle.move_position_y, hby, hint]

/-- Witness for C6 at a concrete input: an isolated particle at (500, 500)
with velocity (1, 0) in a 1000×1000 canvas with `wallMargin = 100`,
`minVelocity = 1`, `maxVelocity = 2`, `dt = 1`. -/
theorem wit_C6_isolated_agent :
    (Particle.move ⟨⟨500, 500⟩, ⟨1, 0⟩, false⟩
      { minVelocity := 1, maxVelocity := 2, viewRange := 200, minDistance := 75,
        separationFactor := 5, cohesionFactor := 5, alignmentFactor := 5,
        wallAvoidFactor := 5, scatterChance := 0.1, timeScale := 1,
        width := 1000, height := 1000, wallMargin := 100, particles := [],
        intervalTimer := 1.5, scattering := false } [] 1 false).velocity
      = ⟨1, 0⟩ ∧
    (Particle.move ⟨⟨500, 500⟩, ⟨1, 0⟩, false⟩
      { minVelocity := 1, maxVelocity := 2, viewRange := 200, minDistance := 75,
        separationFactor := 5, cohesionFactor := 5, alignmentFactor := 5,
        wallAvoidFactor := 5, scatterChance := 0.1, timeScale := 1,
        width := 1000, height := 1000, wallMargin := 100, particles := [],
        intervalTimer := 1.5, scattering := false } [] 1 false).position
      = ⟨501, 500⟩ := by
  have hmag : (Vector2D.mk 1 0).mag = 1 := by
    unfold Vector2D.mag Vector2D.magSq
    norm_num
  obtain ⟨h1, h2⟩ := thm_C6_isolated_agent ⟨⟨500, 500⟩, ⟨1, 0⟩, false⟩
    { minVelocity := 1, maxVelocity := 2, viewRange := 200, minDistance := 75,
      separationFactor := 5, cohesionFactor := 5, alignmentFactor := 5,
      wallAvoidFactor := 5, scatterChance := 0.1, timeScale := 1,
      width := 1000, height := 1000, wallMargin := 100, particles := [],
      intervalTimer := 1.5, scattering := false } [] 1 false
    (by intro p hp; cases hp)
    (by show (100:ℝ) ≤ 500; norm_num)
    (by show (500:ℝ) ≤ 1000 - 100; norm_num)
    (by show (100:ℝ) ≤ 500; norm_num)
    (by show (500:ℝ) ≤ 1000 - 100; norm_num)
    (by rw [hmag])
    (by rw [hmag]; norm_num)
    (by norm_num) (by norm_num) (by norm_num) (by norm_num)
  refine ⟨h1.trans rfl, h2.trans ?_⟩
  unfold Vector2D.add Vector2D.mult
  norm_num

/-! ## A concrete test system -/

/-- A concrete system for witnesses: 1000×1000 canvas, `wallMargin = 100`,
`minVelocity = 1`, `maxVelocity = 2`, the source defaults for the remaining
parameters, and no particles. -/
def S0 : ParticleSystem :=
  { minVelocity := 1, maxVelocity := 2, viewRange := 200, minDistance := 75,
    separationFactor := 5, cohesionFactor := 5, alignmentFactor := 5,
    wallAvoidFactor := 5, scatterChance := 0.1, timeScale := 1,
    width := 1000, height := 1000, wallMargin := 100, particles := [],
    intervalTimer := 1.5, scattering := false }

/-! ## C1: the speed clamp -/

theorem move_velocity_magSq (self : Particle) (sys : ParticleSystem)
    (others : List Particle) (dt : ℝ) (scattering : Bool) :
    (self.move sys others dt scattering).velocity.magSq
      = (self.limitedVelocity sys others dt scattering).magSq := by
  unfold Vector2D.magSq
  rw [Particle.move_velocity_x, Particle.move_velocity_y,
    bounce1D_snd_sq, bounce1D_snd_sq]

/-- C1 (amended): after `move(dt)`, the velocity magnitude lies in
`[minVelocity, maxVelocity]` provided the steered velocity entering the clamp
is nonzero; the boundary bounce only negates components, preserving the
squared magnitude.  (When the steered velocity is zero, the clamp's
zero-magnitude fallback leaves it at zero, below `minVelocity`.) -/
theorem thm_C1_velocity_mag_in_range (self : Particle) (sys : ParticleSystem)
    (others : List Particle) (dt : ℝ) (scattering : Bool)
    (hmin : 0 < sys.minVelocity)
    (hle : sys.minVelocity ≤ sys.maxVelocity)
    (hnz : (self.steeredVelocity sys others dt scattering).magSq ≠ 0) :
    (sys.minVelocity ≤ (self.move sys others dt scattering).velocity.mag ∧
     (self.move sys others dt scattering).velocity.mag ≤ sys.maxVelocity) ∧
    (self.move sys others dt scattering).velocity.magSq
      = (self.limitedVelocity sys others dt scattering).magSq := by
  have hsq := move_velocity_magSq self sys others dt scattering
  have hbounds := Vector2D.limit_magSq (self.steeredVelocity sys others dt scattering)
    sys.minVelocity sys.maxVelocity (le_of_lt hmin) hle hnz
  rw [show self.limitedVelocity sys others dt scattering
      = (self.steeredVelocity sys others dt scattering).limit
          sys.minVelocity sys.maxVelocity from rfl] at hsq
  refine ⟨⟨?_, ?_⟩, hsq⟩
  · calc sys.minVelocity
        = Real.sqrt (sys.minVelocity ^ 2) := (Real.sqrt_sq (le_of_lt hmin)).symm
      _ ≤ (self.move sys others dt scattering).velocity.mag := by
          unfold Vector2D.mag
          exact Real.sqrt_le_sqrt (by rw [hsq]; exact hbounds.1)
  · calc (self.move sys others dt scattering).velocity.mag
        ≤ Real.sqrt (sys.maxVelocity ^ 2) := by
          unfold Vector2D.mag
          exact Real.sqrt_le_sqrt (by rw [hsq]; exact hbounds.2)
      _ = sys.maxVelocity := Real.sqrt_sq (by linarith)

/-- Witness for C1 at a concrete input: the isolated particle of `S0` with
velocity (1, 0) has a nonzero steered velocity and ends with magnitude in
`[1, 2]`. -/
theorem wit_C1_velocity_mag_in_range :
    (0:ℝ) < 1 ∧ (1:ℝ) ≤ 2 ∧
    (S0.minVelocity
        ≤ (Particle.move ⟨⟨500, 500⟩, ⟨1, 0⟩, false⟩ S0 [] 1 false).velocity.mag ∧
      (Particle.move ⟨⟨500, 500⟩, ⟨1, 0⟩, false⟩ S0 [] 1 false).velocity.mag
        ≤ S0.maxVelocity) := by
  have hst : Particle.steeredVelocity ⟨⟨500, 500⟩, ⟨1, 0⟩, false⟩ S0 [] 1 false
      = ⟨1, 0⟩ := by
    apply steeredVelocity_isolated
    · intro p hp; cases hp
    · show (100:ℝ) ≤ 500; norm_num
    · show (500:ℝ) ≤ 1000 - 100; norm_num
    · show (100:ℝ) ≤ 500; norm_num
    · show (500:ℝ) ≤ 1000 - 100; norm_num
  have hnz : (Particle.steeredVelocity ⟨⟨500, 500⟩, ⟨1, 0⟩, false⟩ S0 [] 1
      false).magSq ≠ 0 := by
    rw [hst]
    unfold Vector2D.magSq
    norm_num
  refine ⟨by norm_num, by norm_num, ?_⟩
  exact (thm_C1_velocity_mag_in_range ⟨⟨500, 500⟩, ⟨1, 0⟩, false⟩ S0 [] 1 false
    (by show (0:ℝ) < 1; norm_num) (by show (1:ℝ) ≤ 2; norm_num) hnz).1

/-- Counterexample for C1 as stated: a legal particle state with velocity zero
(such as one spawned via `addParticle(x, y, angle, 0)`) stays at magnitude `0`
after `move(dt)`, strictly below `minVelocity = 1`: the clamp's zero-magnitude
fallback cannot raise a zero vector to `minVelocity`. -/
theorem cex_C1_zero_velocity :
    ¬ (S0.minVelocity
        ≤ (Particle.move ⟨⟨500, 500⟩, ⟨0, 0⟩, false⟩ S0 [] 1 false).velocity.mag) := by
  have hst : Particle.steeredVelocity ⟨⟨500, 500⟩, ⟨0, 0⟩, false⟩ S0 [] 1 false
      = ⟨0, 0⟩ := by
    apply steeredVelocity_isolated
    · intro p hp; cases hp
    · show (100:ℝ) ≤ 500; norm_num
    · show (500:ℝ) ≤ 1000 - 100; norm_num
    · show (100:ℝ) ≤ 500; norm_num
    · show (500:ℝ) ≤ 1000 - 100; norm_num
  have hlim : Particle.limitedVelocity ⟨⟨500, 500⟩, ⟨0, 0⟩, false⟩ S0 [] 1 false
      = Vector2D.zero := by
    unfold Particle.limitedVelocity
    rw [hst]
    apply Vector2D.limit_of_magSq_zero
    · unfold Vector2D.magSq; norm_num
    · show (0:ℝ) < 1; norm_num
  have hsq := move_velocity_magSq ⟨⟨500, 500⟩, ⟨0, 0⟩, false⟩ S0 [] 1 false
  rw [hlim] at hsq
  have hz : (Vector2D.zero).magSq = 0 := by unfold Vector2D.magSq; simp
  have hmag : (Particle.move ⟨⟨500, 500⟩, ⟨0, 0⟩, false⟩ S0 [] 1 false).velocity.mag
      = 0 := by
    unfold Vector2D.mag
    rw [hsq, hz, Real.sqrt_zero]
  rw [hmag]
  show ¬ ((1:ℝ) ≤ 0)
  norm_num

/-! ## C2: positions stay on the canvas -/

/-- C2: after any `move(dt)`, the position satisfies
`0 ≤ x ≤ width` and `0 ≤ y ≤ height` (for a canvas of nonnegative size); when
the integrated position crosses a boundary, it is clamped to that boundary and
the corresponding velocity component is negated exactly when it still points
outward across that boundary. -/
theorem thm_C2_position_in_bounds (self : Particle) (sys : ParticleSystem)
    (others : List Particle) (dt : ℝ) (scattering : Bool)
    (hw : 0 ≤ sys.width) (hh : 0 ≤ sys.height) :
    (0 ≤ (self.move sys others dt scattering).position.x ∧
     (self.move sys others dt scattering).position.x ≤ sys.width ∧
     0 ≤ (self.move sys others dt scattering).position.y ∧
     (self.move sys others dt scattering).position.y ≤ sys.height) ∧
    ((self.integratedPosition sys others dt scattering).x < 0 →
      (self.move sys others dt scattering).position.x = 0 ∧
      (self.move sys others dt scattering).velocity.x
        = (if (self.limitedVelocity sys others dt scattering).x < 0
            then -(self.limitedVelocity sys others dt scattering).x
            else (self.limitedVelocity sys others dt scattering).x)) ∧
    (¬ (self.integratedPosition sys others dt scattering).x < 0 →
      (self.integratedPosition sys others dt scattering).x > sys.width →
      (self.move sys others dt scattering).position.x = sys.width ∧
      (self.move sys others dt scattering).velocity.x
        = (if (self.limitedVelocity sys others dt scattering).x > 0
            then -(self.limitedVelocity sys others dt scattering).x
            else (self.limitedVelocity sys others dt scattering).x)) ∧
    ((self.integratedPosition sys others dt scattering).y < 0 →
      (self.move sys others dt scattering).position.y = 0 ∧
      (self.move sys others dt scattering).velocity.y
        = (if (self.limitedVelocity sys others dt scattering).y < 0
            then -(self.limitedVelocity sys others dt scattering).y
            else (self.limitedVelocity sys others dt scattering).y)) ∧
    (¬ (self.integratedPosition sys others dt scattering).y < 0 →
      (self.integratedPosition sys others dt scattering).y > sys.height →
      (self.move sys others dt scattering).position.y = sys.height ∧
      (self.move sys others dt scattering).velocity.y
        = (if (self.limitedVelocity sys others dt scattering).y > 0
            then -(self.limitedVelocity sys others dt scattering).y
            else (self.limitedVelocity sys others dt scattering).y)) := by
  refine ⟨?_, ?_, ?_, ?_, ?_⟩
  · have hx := bounce1D_fst_bounds (self.integratedPosition sys others dt scattering).x
      (self.limitedVelocity sys others dt scattering).x sys.width hw
    have hy := bounce1D_fst_bounds (self.integratedPosition sys others dt scattering).y
      (self.limitedVelocity sys others dt scattering).y sys.height hh
    rw [Particle.move_position_x, Particle.move_position_y]
    exact ⟨hx.1, hx.2, hy.1, hy.2⟩
  · intro hcross
    rw [Particle.move_position_x, Particle.move_velocity_x,
      bounce1D_low _ _ _ hcross]
    constructor
    · rfl
    · split_ifs with h
      · show _ * (-1) = _; ring
      · rfl
  · intro h1 h2
    rw [Particle.move_position_x, Particle.move_velocity_x,
      bounce1D_high _ _ _ h1 h2]
    constructor
    · rfl
    · split_ifs with h
      · show _ * (-1) = _; ring
      · rfl
  · intro hcross
    rw [Particle.move_position_y, Particle.move_velocity_y,
      bounce1D_low _ _ _ hcross]
    constructor
    · rfl
    · split_ifs with h
      · show _ * (-1) = _; ring
      · rfl
  · intro h1 h2
    rw [Particle.move_position_y, Particle.move_velocity_y,
      bounce1D_high _ _ _ h1 h2]
    constructor
    · rfl
    · split_ifs with h
      · show _ * (-1) = _; ring
      · rfl

/-- Witness for C2 at a concrete input: the isolated particle of `S0` ends
inside the 1000×1000 canvas. -/
theorem wit_C2_position_in_bounds :
    (0:ℝ) ≤ 1000 ∧
    (0 ≤ (Particle.move ⟨⟨500, 500⟩, ⟨1, 0⟩, false⟩ S0 [] 1 false).position.x ∧
     (Particle.move ⟨⟨500, 500⟩, ⟨1, 0⟩, false⟩ S0 [] 1 false).position.x ≤ S0.width ∧
     0 ≤ (Particle.move ⟨⟨500, 500⟩, ⟨1, 0⟩, false⟩ S0 [] 1 false).position.y ∧
     (Particle.move ⟨⟨500, 500⟩, ⟨1, 0⟩, false⟩ S0 [] 1 false).position.y ≤ S0.height) := by
  refine ⟨by norm_num, ?_⟩
  exact (thm_C2_position_in_bounds ⟨⟨500, 500⟩, ⟨1, 0⟩, false⟩ S0 [] 1 false
    (by show (0:ℝ) ≤ 1000; norm_num) (by show (0:ℝ) ≤ 1000; norm_num)).1

/-! ## C3: neighbor classification -/

/-- C3: neighbor classification in the flocking update of agent `i` of the
list `ps`.  The scan list is the live list without the agent itself (one
element fewer); `B` is a neighbor iff it is in that list and
`distSq(A,B) < viewRange²` (strict); the too-close and cohesion-eligible
classes partition the neighbor list (every neighbor lands in exactly one);
and two agents at exactly distance `minDistance` do not trigger separation. -/
theorem thm_C3_neighbor_partition (sys : ParticleSystem) (ps : List Particle)
    (i : ℕ) (hi : i < ps.length) :
    ((ps.eraseIdx i).length + 1 = ps.length) ∧
    (∀ p, p ∈ Particle.nearbyOf sys (ps.eraseIdx i) (ps.getD i default) ↔
      p ∈ ps.eraseIdx i ∧
        (ps.getD i default).position.distSq p.position < sys.viewRange ^ 2) ∧
    ((tooCloseOf sys (ps.getD i default)
        (Particle.nearbyOf sys (ps.eraseIdx i) (ps.getD i default))).length +
      (consideredOf sys (ps.getD i default)
        (Particle.nearbyOf sys (ps.eraseIdx i) (ps.getD i default))).length
      = (Particle.nearbyOf sys (ps.eraseIdx i) (ps.getD i default)).length) ∧
    (∀ p, ¬ (p ∈ tooCloseOf sys (ps.getD i default)
          (Particle.nearbyOf sys (ps.eraseIdx i) (ps.getD i default)) ∧
        p ∈ consideredOf sys (ps.getD i default)
          (Particle.nearbyOf sys (ps.eraseIdx i) (ps.getD i default)))) ∧
    (∀ p ∈ Particle.nearbyOf sys (ps.eraseIdx i) (ps.getD i default),
      p ∈ tooCloseOf sys (ps.getD i default)
          (Particle.nearbyOf sys (ps.eraseIdx i) (ps.getD i default)) ∨
        p ∈ consideredOf sys (ps.getD i default)
          (Particle.nearbyOf sys (ps.eraseIdx i) (ps.getD i default))) ∧
    (∀ p, (ps.getD i default).position.distSq p.position = sys.minDistance ^ 2 →
      ¬ (ps.getD i default).tooClose sys p) := by
  refine ⟨?_, ?_, ?_, ?_, ?_, ?_⟩
  · exact List.length_eraseIdx_add_one hi
  · intro p
    exact mem_nearbyOf sys (ps.eraseIdx i) (ps.getD i default) p
  · unfold tooCloseOf consideredOf
    induction Particle.nearbyOf sys (ps.eraseIdx i) (ps.getD i default) with
    | nil => simp
    | cons q t ih =>
      cases h : decide ((ps.getD i default).tooClose sys q) <;>
        simp only [List.filter_cons, h, Bool.not_true, Bool.not_false,
          Bool.false_eq_true, Bool.true_eq_false, ite_true, ite_false,
          if_true, if_false, List.length_cons] <;> omega
  · intro p ⟨h1, h2⟩
    rw [tooCloseOf, List.mem_filter] at h1
    rw [consideredOf, List.mem_filter] at h2
    simp only [decide_eq_true_eq, Bool.not_eq_true', decide_eq_false_iff_not] at h1 h2
    exact h2.2 h1.2
  · intro p hp
    by_cases h : (ps.getD i default).tooClose sys p
    · left
      rw [tooCloseOf, List.mem_filter]
      simp only [decide_eq_true_eq]
      exact ⟨hp, h⟩
    · right
      rw [consideredOf, List.mem_filter]
      simp only [Bool.not_eq_true', decide_eq_false_iff_not]
      exact ⟨hp, h⟩
  · intro p hEq
    unfold Particle.tooClose
    rw [hEq]
    exact lt_irrefl _

/-- Witness for C3 at a concrete input: a two-particle list, agent index 0. -/
theorem wit_C3_neighbor_partition :
    0 < ([⟨⟨0, 0⟩, ⟨1, 0⟩, false⟩, ⟨⟨100, 0⟩, ⟨1, 0⟩, false⟩] : List Particle).length ∧
    (([⟨⟨0, 0⟩, ⟨1, 0⟩, false⟩,
        (⟨⟨100, 0⟩, ⟨1, 0⟩, false⟩ : Particle)].eraseIdx 0).length + 1
      = ([⟨⟨0, 0⟩, ⟨1, 0⟩, false⟩, (⟨⟨100, 0⟩, ⟨1, 0⟩, false⟩ : Particle)]).length) := by
  refine ⟨by simp, ?_⟩
  exact (thm_C3_neighbor_partition S0
    [⟨⟨0, 0⟩, ⟨1, 0⟩, false⟩, ⟨⟨100, 0⟩, ⟨1, 0⟩, false⟩] 0 (by simp)).1

/-! ## C4: the separation, alignment and cohesion terms -/

/-- Concrete agent at the origin. -/
def pA : Particle := ⟨⟨0, 0⟩, ⟨0, 0⟩, false⟩

/-- Concrete neighbor one pixel to the right of `pA` (well within
`minDistance = 75`). -/
def pB : Particle := ⟨⟨1, 0⟩, ⟨0, 0⟩, false⟩

/-- Concrete neighbor one pixel to the left of `pA` (well within
`minDistance = 75`). -/
def pC : Particle := ⟨⟨-1, 0⟩, ⟨0, 0⟩, false⟩

/-- Concrete neighbor 100 pixels from `pA`: inside `viewRange = 200` but not
within `minDistance = 75`, hence cohesion-eligible. -/
def pD : Particle := ⟨⟨100, 0⟩, ⟨1, 0⟩, false⟩

theorem pA_inView_pB : pA.inView S0 pB := by
  unfold Particle.inView pA pB S0 Vector2D.distSq
  norm_num

theorem pA_inView_pC : pA.inView S0 pC := by
  unfold Particle.inView pA pC S0 Vector2D.distSq
  norm_num

theorem pA_tooClose_pB : pA.tooClose S0 pB := by
  unfold Particle.tooClose pA pB S0 Vector2D.distSq
  norm_num

theorem pA_tooClose_pC : pA.tooClose S0 pC := by
  unfold Particle.tooClose pA pC S0 Vector2D.distSq
  norm_num

theorem nearby_pBC : Particle.nearbyOf S0 [pB, pC] pA = [pB, pC] := by
  unfold Particle.nearbyOf
  simp [pA_inView_pB, pA_inView_pC]

/-- Counterexample for C4 as stated: with two too-close neighbors placed
symmetrically about the agent, the separation vector is the zero vector even
though too-close neighbors exist — "zero exactly when no neighbor lies
strictly within minDistance" fails in the right-to-left direction. -/
theorem cex_C4_cancelling_separation :
    (flockAccum S0 pA (Particle.nearbyOf S0 [pB, pC] pA)).separationVector = 0 ∧
    pA.tooClose S0 pB ∧ pB ∈ Particle.nearbyOf S0 [pB, pC] pA := by
  refine ⟨?_, pA_tooClose_pB, by rw [nearby_pBC]; simp⟩
  rw [nearby_pBC]
  unfold flockAccum
  simp only [List.foldl_cons, List.foldl_nil, flockStep,
    if_pos pA_tooClose_pB, if_pos pA_tooClose_pC]
  show (Vector2D.zero.add (pA.position.copy.sub pB.position)).add
      (pA.position.copy.sub pC.position) = 0
  unfold pA pB pC
  ext <;> simp [Vector2D.add, Vector2D.sub, Vector2D.copy, Vector2D.zero]

/-- C4 (amended): the separation term is always applied and is zero whenever
no neighbor lies strictly within `minDistance` (though it can also vanish by
cancellation of opposed too-close neighbors); the alignment and cohesion terms
are added if and only if the count `k` of cohesion-eligible neighbors is
nonzero; with exactly one too-close neighbor `b`, the separation vector equals
`A.position - b.position`, pointing away from `b`. -/
theorem thm_C4_separation_terms (self : Particle) (sys : ParticleSystem)
    (others : List Particle) (dt : ℝ) (scattering : Bool) :
    ((∀ p ∈ Particle.nearbyOf sys others self, ¬ self.tooClose sys p) →
      (flockAccum sys self (Particle.nearbyOf sys others self)).separationVector = 0) ∧
    ((flockAccum sys self (Particle.nearbyOf sys others self)).numConsidered = 0 →
      self.flockedVelocity sys others dt scattering
        = self.velocity.add
            ((flockAccum sys self
              (Particle.nearbyOf sys others self)).separationVector.mult
              (sys.separationFactor * dt))) ∧
    (0 < (flockAccum sys self (Particle.nearbyOf sys others self)).numConsidered →
      self.flockedVelocity sys others dt scattering
        = ((self.velocity.add
              ((flockAccum sys self
                (Particle.nearbyOf sys others self)).separationVector.mult
                (sys.separationFactor * dt))).add
            (((flockAccum sys self
                (Particle.nearbyOf sys others self)).alignmentVector.div
                ((flockAccum sys self
                  (Particle.nearbyOf sys others self)).numConsidered : ℝ)).mult
              (sys.alignmentFactor * dt))).add
            (((flockAccum sys self
                (Particle.nearbyOf sys others self)).averageNearbyPosition.div
                ((flockAccum sys self
                  (Particle.nearbyOf sys others self)).numConsidered : ℝ)).mult
              ((if scattering then sys.cohesionFactor * (-1)
                else sys.cohesionFactor) * dt))) ∧
    (∀ b, tooCloseOf sys self (Particle.nearbyOf sys others self) = [b] →
      (flockAccum sys self (Particle.nearbyOf sys others self)).separationVector
        = self.position.sub b.position) := by
  refine ⟨?_, ?_, ?_, ?_⟩
  · intro h
    rw [flockAccum_eq]
    show (sepTerms sys self (Particle.nearbyOf sys others self)).sum = 0
    unfold sepTerms tooCloseOf
    rw [List.filter_eq_nil_iff.mpr (by intro p hp; simpa using h p hp)]
    simp
  · intro h
    unfold Particle.flockedVelocity
    rw [if_neg (by rw [h]; exact lt_irrefl 0)]
  · intro h
    unfold Particle.flockedVelocity
    rw [if_pos h]
  · intro b hb
    rw [flockAccum_eq]
    show (sepTerms sys self (Particle.nearbyOf sys others self)).sum
      = self.position.sub b.position
    unfold sepTerms
    rw [hb]
    show Vector2D.add (self.position.copy.sub b.position) 0 = self.position.sub b.position
    rw [Vector2D.add_def, add_zero, Vector2D.copy_eq]

/-- Witness for C4: an agent with no particles around it has separation
vector zero. -/
theorem wit_C4_separation_terms :
    (flockAccum S0 pA (Particle.nearbyOf S0 [] pA)).separationVector = 0 :=
  (thm_C4_separation_terms pA S0 [] 1 false).1 (by intro p hp; cases hp)

/-! ## C5: the cohesion term and the scattering sign flip -/

/-- C5: with `k > 0` cohesion-eligible neighbors, the cohesion contribution
equals the sum of `(B.position - A.position)` over those neighbors, divided by
`k`, times `cohesionFactor * dt`, with the sign multiplied by `-1` exactly when
the system-wide scattering flag is set; the separation and alignment
contributions do not involve the flag. -/
theorem thm_C5_cohesion_scatter_sign (self : Particle) (sys : ParticleSystem)
    (others : List Particle) (dt : ℝ) (scattering : Bool)
    (hk : 0 < (flockAccum sys self (Particle.nearbyOf sys others self)).numConsidered) :
    self.flockedVelocity sys others dt scattering
      = ((self.velocity.add
            ((flockAccum sys self
              (Particle.nearbyOf sys others self)).separationVector.mult
              (sys.separationFactor * dt))).add
          (((flockAccum sys self
              (Particle.nearbyOf sys others self)).alignmentVector.div
              ((flockAccum sys self
                (Particle.nearbyOf sys others self)).numConsidered : ℝ)).mult
            (sys.alignmentFactor * dt))).add
          ((((cohTerms sys self (Particle.nearbyOf sys others self)).sum).div
              ((flockAccum sys self
                (Particle.nearbyOf sys others self)).numConsidered : ℝ)).mult
            (((if scattering then (-1 : ℝ) else 1) * sys.cohesionFactor) * dt)) := by
  unfold Particle.flockedVelocity
  rw [if_pos hk]
  have hcoh : (flockAccum sys self
      (Particle.nearbyOf sys others self)).averageNearbyPosition
      = (cohTerms sys self (Particle.nearbyOf sys others self)).sum := by
    rw [flockAccum_eq]
  have hsign : (if scattering then sys.cohesionFactor * (-1) else sys.cohesionFactor)
      = (if scattering then (-1 : ℝ) else 1) * sys.cohesionFactor := by
    cases scattering <;> simp
  rw [hcoh, hsign]

theorem pA_inView_pD : pA.inView S0 pD := by
  unfold Particle.inView pA pD S0 Vector2D.distSq
  norm_num

theorem pA_not_tooClose_pD : ¬ pA.tooClose S0 pD := by
  unfold Particle.tooClose pA pD S0 Vector2D.distSq
  norm_num

theorem nearby_pD : Particle.nearbyOf S0 [pD] pA = [pD] := by
  unfold Particle.nearbyOf
  simp [pA_inView_pD]

theorem numConsidered_pD :
    (flockAccum S0 pA (Particle.nearbyOf S0 [pD] pA)).numConsidered = 1 := by
  rw [nearby_pD, flockAccum_eq]
  show (consideredOf S0 pA [pD]).length = 1
  unfold consideredOf
  simp [pA_not_tooClose_pD]

/-- Witness for C5 at a concrete input: one cohesion-eligible neighbor at
distance 100, no scattering. -/
theorem wit_C5_cohesion_scatter_sign :
    0 < (flockAccum S0 pA (Particle.nearbyOf S0 [pD] pA)).numConsidered ∧
    Particle.flockedVelocity pA S0 [pD] 1 false
      = ((pA.velocity.add
            ((flockAccum S0 pA
              (Particle.nearbyOf S0 [pD] pA)).separationVector.mult
              (S0.separationFactor * 1))).add
          (((flockAccum S0 pA
              (Particle.nearbyOf S0 [pD] pA)).alignmentVector.div
              ((flockAccum S0 pA
                (Particle.nearbyOf S0 [pD] pA)).numConsidered : ℝ)).mult
            (S0.alignmentFactor * 1))).add
          ((((cohTerms S0 pA (Particle.nearbyOf S0 [pD] pA)).sum).div
              ((flockAccum S0 pA
                (Particle.nearbyOf S0 [pD] pA)).numConsidered : ℝ)).mult
            (((if false then (-1 : ℝ) else 1) * S0.cohesionFactor) * 1)) := by
  have hk : 0 < (flockAccum S0 pA (Particle.nearbyOf S0 [pD] pA)).numConsidered := by
    rw [numConsidered_pD]
    norm_num
  exact ⟨hk, thm_C5_cohesion_scatter_sign pA S0 [pD] 1 false hk⟩

/-! ## C7: the scatter timer -/

/-- Iterating the scatter-timer update over a list of frames, each frame a
`(dt, random draw)` pair. -/
def scatterRun (chance : ℝ) (init : ℝ × Bool) (steps : List (ℝ × ℝ)) : ℝ × Bool :=
  steps.foldl (fun st s => scatterUpdate st.1 s.1 chance s.2 st.2) init

/-- C7: when the decremented interval timer reaches zero, it is reset to the
fixed interval `1.5` and the scattering flag is redrawn as
`randBool(scatterChance)`; for any draw `r ∈ [0, 1)`, `scatterChance = 1`
makes the flag true at every rollover, and `scatterChance = 0` makes it false
at every rollover and (starting from a non-scattering state) never true. -/
theorem thm_C7_scatter_rollover (timer dt chance r : ℝ) (old : Bool)
    (hroll : timer - dt ≤ 0) (hr0 : 0 ≤ r) (hr1 : r < 1) :
    scatterUpdate timer dt chance r old = (1.5, ParticleSystem.randBool r chance) ∧
    (chance = 1 → (scatterUpdate timer dt chance r old).2 = true) ∧
    (chance = 0 → (scatterUpdate timer dt chance r old).2 = false) ∧
    (chance = 0 → ∀ (steps : List (ℝ × ℝ)), (∀ st ∈ steps, 0 ≤ st.2) →
      ∀ t0 : ℝ, (scatterRun chance (t0, false) steps).2 = false) := by
  have hu : scatterUpdate timer dt chance r old
      = (1.5, ParticleSystem.randBool r chance) := by
    unfold scatterUpdate
    rw [if_pos hroll]
  refine ⟨hu, ?_, ?_, ?_⟩
  · intro h1
    rw [hu, h1]
    unfold ParticleSystem.randBool
    simpa using hr1
  · intro h0
    rw [hu, h0]
    unfold ParticleSystem.randBool
    simpa using not_lt.mpr hr0
  · intro h0 steps
    induction steps with
    | nil => intro _ t0; rfl
    | cons st t ih =>
      intro hsteps t0
      unfold scatterRun
      rw [List.foldl_cons]
      have hb : (scatterUpdate t0 st.1 chance st.2 false).2 = false := by
        show (if t0 - st.1 ≤ 0
            then ((1.5 : ℝ), ParticleSystem.randBool st.2 chance)
            else (t0 - st.1, false)).2 = false
        unfold ParticleSystem.randBool
        split_ifs with h
        · rw [h0]
          simpa using not_lt.mpr (hsteps st (List.mem_cons_self st t))
        · rfl
      rcases hE : scatterUpdate t0 st.1 chance st.2 false with ⟨t1, b1⟩
      rw [hE] at hb
      simp only at hb
      subst hb
      exact ih (fun q hq => hsteps q (List.mem_cons_of_mem st hq)) t1

/-- Witness for C7: timer 1, decrement 2 (rollover), chance 1, draw 0. -/
theorem wit_C7_scatter_rollover :
    ((1:ℝ) - 2 ≤ 0 ∧ (0:ℝ) ≤ 0 ∧ (0:ℝ) < 1) ∧
    scatterUpdate 1 2 1 0 false = (1.5, ParticleSystem.randBool 0 1) ∧
    ((1:ℝ) = 1 → (scatterUpdate 1 2 1 0 false).2 = true) := by
  have h := thm_C7_scatter_rollover 1 2 1 0 false (by norm_num) (by norm_num)
    (by norm_num)
  exact ⟨⟨by norm_num, by norm_num, by norm_num⟩, h.1, h.2.1⟩

/-! ## C8: which dt reaches the timer and which reaches the agents -/

/-- C8 (amended): `moveAll` computes `dt = deltaTime / 1000 * 0.75` (frame
time in seconds, damped by the constant 0.75); the interval timer is
decremented by this `dt` *without* the `timeScale` factor, while every agent
is updated with `dt * timeScale`; the two coincide exactly when
`timeScale = 1`.  Stated here on a frame with no timer rollover. -/
theorem thm_C8_frame_dt (sys : ParticleSystem) (deltaTime r : ℝ)
    (hnoroll : ¬ sys.intervalTimer - deltaTime / 1000 * 0.75 ≤ 0) :
    (sys.moveAll deltaTime r).intervalTimer
      = sys.intervalTimer - deltaTime / 1000 * 0.75 ∧
    (sys.moveAll deltaTime r).scattering = sys.scattering ∧
    (sys.moveAll deltaTime r).particles
      = (moveLoop
          { sys with
              intervalTimer := sys.intervalTimer - deltaTime / 1000 * 0.75 }
          (deltaTime / 1000 * 0.75 * sys.timeScale) sys.scattering
          sys.particles).filter (fun p => !p.markForRemove) ∧
    (sys.timeScale = 1 →
      deltaTime / 1000 * 0.75 * sys.timeScale = deltaTime / 1000 * 0.75) := by
  have hst : scatterUpdate sys.intervalTimer (deltaTime / 1000 * 0.75)
      sys.scatterChance r sys.scattering
      = (sys.intervalTimer - deltaTime / 1000 * 0.75, sys.scattering) := by
    unfold scatterUpdate
    rw [if_neg hnoroll]
  refine ⟨?_, ?_, ?_, ?_⟩
  · show (scatterUpdate sys.intervalTimer (deltaTime / 1000 * 0.75)
        sys.scatterChance r sys.scattering).1 = _
    rw [hst]
  · show (scatterUpdate sys.intervalTimer (deltaTime / 1000 * 0.75)
        sys.scatterChance r sys.scattering).2 = _
    rw [hst]
  · show (moveLoop _ _ _ _).filter _ = _
    rw [hst]
  · intro h1
    rw [h1, mul_one]

/-- Witness for C8: `S0` (timer 1.5, `timeScale = 1`) with a 1000 ms frame:
no rollover, and the timer drops by the damped frame dt. -/
theorem wit_C8_frame_dt :
    ¬ (S0.intervalTimer - 1000 / 1000 * 0.75 ≤ 0) ∧
    (S0.moveAll 1000 0).intervalTimer = S0.intervalTimer - 1000 / 1000 * 0.75 := by
  have hno : ¬ (S0.intervalTimer - 1000 / 1000 * 0.75 ≤ 0) := by
    show ¬ ((1.5 : ℝ) - 1000 / 1000 * 0.75 ≤ 0)
    norm_num
  exact ⟨hno, (thm_C8_frame_dt S0 1000 0 hno).1⟩

/-- An isolated in-range agent is integrated rigidly: the record-level version
of the `thm_C6_isolated_agent` computation, for reuse in concrete evaluations. -/
theorem move_isolated (self : Particle) (sys : ParticleSystem)
    (others : List Particle) (dt : ℝ) (scattering : Bool)
    (h : ∀ p ∈ others, ¬ self.inView sys p)
    (hx1 : sys.leftEdge ≤ self.position.x) (hx2 : self.position.x ≤ sys.rightEdge)
    (hy1 : sys.topEdge ≤ self.position.y) (hy2 : self.position.y ≤ sys.bottomEdge)
    (hv1 : sys.minVelocity ≤ self.velocity.mag)
    (hv2 : self.velocity.mag ≤ sys.maxVelocity)
    (hpx1 : 0 ≤ self.position.x + self.velocity.x * dt)
    (hpx2 : self.position.x + self.velocity.x * dt ≤ sys.width)
    (hpy1 : 0 ≤ self.position.y + self.velocity.y * dt)
    (hpy2 : self.position.y + self.velocity.y * dt ≤ sys.height) :
    self.move sys others dt scattering
      = ⟨self.position.add (self.velocity.mult dt), self.velocity,
          self.markForRemove⟩ := by
  have hlim : self.limitedVelocity sys others dt scattering = self.velocity :=
    limitedVelocity_isolated self sys others dt scattering h hx1 hx2 hy1 hy2 hv1 hv2
  have hint : self.integratedPosition sys others dt scattering
      = self.position.add (self.velocity.mult dt) := by
    unfold Particle.integratedPosition
    rw [hlim, Vector2D.copy_eq]
  have hix : (self.integratedPosition sys others dt scattering).x
      = self.position.x + self.velocity.x * dt := by rw [hint]; simp
  have hiy : (self.integratedPosition sys others dt scattering).y
      = self.position.y + self.velocity.y * dt := by rw [hint]; simp
  have hbx : bounce1D (self.integratedPosition sys others dt scattering).x
      (self.limitedVelocity sys others dt scattering).x sys.width
      = ((self.integratedPosition sys others dt scattering).x,
         (self.limitedVelocity sys others dt scattering).x) :=
    bounce1D_id _ _ _ (by rw [hix]; exact hpx1) (by rw [hix]; exact hpx2)
  have hby : bounce1D (self.integratedPosition sys others dt scattering).y
      (self.limitedVelocity sys others dt scattering).y sys.height
      = ((self.integratedPosition sys others dt scattering).y,
         (self.limitedVelocity sys others dt scattering).y) :=
    bounce1D_id _ _ _ (by rw [hiy]; exact hpy1) (by rw [hiy]; exact hpy2)
  show Particle.mk ⟨_, _⟩ ⟨_, _⟩ _ = _
  rw [hbx, hby, hlim, hint]

theorem mag_unit : (Vector2D.mk 1 0).mag = 1 := by
  unfold Vector2D.mag Vector2D.magSq
  norm_num

/-- The system of the C8 counterexample: `S0` with `timeScale = 2`, interval
timer 10, and a single isolated inert particle. -/
def S1 : ParticleSystem :=
  { S0 with timeScale := 2, intervalTimer := 10,
            particles := [⟨⟨500, 500⟩, ⟨1, 0⟩, false⟩] }

/-- Counterexample for C8 as stated: with `timeScale = 2` and a 1000 ms frame,
the interval timer is decremented by `0.75` (damped real time, *not*
time-scaled), while the particle advances by `velocity * 1.5`
(`dt * timeScale`): the timer decrement is not the time-scaled dt passed to
the agents. -/
theorem cex_C8_timer_not_timescaled :
    (S1.moveAll 1000 0).intervalTimer = 10 - 0.75 ∧
    (S1.moveAll 1000 0).particles = [⟨⟨500 + 1 * 1.5, 500⟩, ⟨1, 0⟩, false⟩] ∧
    (10 : ℝ) - (10 - 0.75) ≠ 1 * 1.5 := by
  have hst : scatterUpdate S1.intervalTimer (1000 / 1000 * 0.75)
      S1.scatterChance 0 S1.scattering = (10 - 0.75, false) := by
    show (if (10 : ℝ) - 1000 / 1000 * 0.75 ≤ 0 then _ else ((10 : ℝ) - 1000 / 1000 * 0.75, false)) = _
    rw [if_neg (by norm_num)]
    norm_num
  have hmove : ∀ sys2 : ParticleSystem,
      sys2.minVelocity = 1 → sys2.maxVelocity = 2 →
      sys2.wallMargin = 100 → sys2.width = 1000 → sys2.height = 1000 →
      Particle.move ⟨⟨500, 500⟩, ⟨1, 0⟩, false⟩ sys2 [] 1.5 false
        = ⟨⟨500 + 1 * 1.5, 500⟩, ⟨1, 0⟩, false⟩ := by
    intro sys2 h1 h2 h3 h4 h5
    rw [move_isolated ⟨⟨500, 500⟩, ⟨1, 0⟩, false⟩ sys2 [] 1.5 false
      (by intro p hp; cases hp)
      (by show sys2.wallMargin ≤ 500; rw [h3]; norm_num)
      (by show (500:ℝ) ≤ sys2.width - sys2.wallMargin; rw [h3, h4]; norm_num)
      (by show sys2.wallMargin ≤ 500; rw [h3]; norm_num)
      (by show (500:ℝ) ≤ sys2.height - sys2.wallMargin; rw [h3, h5]; norm_num)
      (by rw [mag_unit, h1])
      (by rw [mag_unit, h2]; norm_num)
      (by norm_num) (by rw [h4]; norm_num) (by norm_num) (by rw [h5]; norm_num)]
    show Particle.mk (Vector2D.add ⟨500, 500⟩ (Vector2D.mult ⟨1, 0⟩ 1.5)) ⟨1, 0⟩ false = _
    unfold Vector2D.add Vector2D.mult
    norm_num
  have hunfold : S1.moveAll 1000 0
      = { S1 with
            intervalTimer := (scatterUpdate S1.intervalTimer (1000 / 1000 * 0.75)
              S1.scatterChance 0 S1.scattering).1,
            scattering := (scatterUpdate S1.intervalTimer (1000 / 1000 * 0.75)
              S1.scatterChance 0 S1.scattering).2,
            particles :=
              (moveLoop
                { S1 with
                    intervalTimer := (scatterUpdate S1.intervalTimer
                      (1000 / 1000 * 0.75) S1.scatterChance 0 S1.scattering).1,
                    scattering := (scatterUpdate S1.intervalTimer
                      (1000 / 1000 * 0.75) S1.scatterChance 0 S1.scattering).2 }
                (1000 / 1000 * 0.75 * S1.timeScale)
                (scatterUpdate S1.intervalTimer (1000 / 1000 * 0.75)
                  S1.scatterChance 0 S1.scattering).2
                S1.particles).filter (fun p => !p.markForRemove) } := rfl
  rw [hunfold, hst]
  have hdt : 1000 / 1000 * 0.75 * S1.timeScale = (1.5 : ℝ) := by
    show 1000 / 1000 * 0.75 * (2 : ℝ) = 1.5
    norm_num
  rw [hdt]
  refine ⟨rfl, ?_, by norm_num⟩
  show (moveLoop
      { S1 with intervalTimer := 10 - 0.75, scattering := false } 1.5 false
      [⟨⟨500, 500⟩, ⟨1, 0⟩, false⟩]).filter (fun p => !p.markForRemove) = _
  unfold moveLoop moveStep
  rw [show List.range ([(⟨⟨500, 500⟩, ⟨1, 0⟩, false⟩ : Particle)].length) = [0]
    from by decide]
  rw [List.foldl_cons, List.foldl_nil]
  rw [show ([(⟨⟨500, 500⟩, ⟨1, 0⟩, false⟩ : Particle)].getD 0 default)
      = ⟨⟨500, 500⟩, ⟨1, 0⟩, false⟩ from rfl,
    show ([(⟨⟨500, 500⟩, ⟨1, 0⟩, false⟩ : Particle)].eraseIdx 0) = [] from rfl]
  rw [hmove _ rfl rfl rfl rfl rfl]
  rfl

/-! ## C9: removeParticle -/

/-- C9: with the frame's draw `r ∈ [0, 1)`, `removeParticle()` on a non-empty
collection removes exactly the agent at index `floor(r * count)` — a valid
index — leaving the agents before it and after it in place; on an empty
collection it is a no-op. -/
theorem thm_C9_removeParticle (sys : ParticleSystem) (r : ℝ)
    (hr0 : 0 ≤ r) (hr1 : r < 1) :
    (sys.particles = [] → (sys.removeParticle r).particles = []) ∧
    (sys.particles ≠ [] →
      ⌊r * (sys.particles.length : ℝ)⌋₊ < sys.particles.length ∧
      (sys.removeParticle r).particles.length + 1 = sys.particles.length ∧
      (sys.removeParticle r).particles
        = sys.particles.take ⌊r * (sys.particles.length : ℝ)⌋₊
          ++ sys.particles.drop (⌊r * (sys.particles.length : ℝ)⌋₊ + 1)) := by
  constructor
  · intro h
    show sys.particles.eraseIdx _ = []
    rw [h]
    rfl
  · intro h
    have hlen : 0 < sys.particles.length := List.length_pos.mpr h
    have hidx : ⌊r * (sys.particles.length : ℝ)⌋₊ < sys.particles.length := by
      rw [Nat.floor_lt (by positivity)]
      calc r * (sys.particles.length : ℝ)
          < 1 * (sys.particles.length : ℝ) := by
            apply mul_lt_mul_of_pos_right hr1
            exact_mod_cast hlen
        _ = (sys.particles.length : ℝ) := one_mul _
    refine ⟨hidx, ?_, ?_⟩
    · show (sys.particles.eraseIdx _).length + 1 = _
      exact List.length_eraseIdx_add_one hidx
    · show sys.particles.eraseIdx _ = _
      exact List.eraseIdx_eq_take_drop_succ sys.particles _

/-- The system of the C9/C10 witnesses: `S0` with a single particle. -/
def S2 : ParticleSystem := { S0 with particles := [pA] }

/-- Witness for C9: removing from the one-particle system `S2` with draw 0.5
removes the particle at index 0 and leaves the empty list. -/
theorem wit_C9_removeParticle :
    ((0:ℝ) ≤ 0.5 ∧ (0.5:ℝ) < 1 ∧ S2.particles ≠ []) ∧
    ⌊(0.5:ℝ) * (S2.particles.length : ℝ)⌋₊ < S2.particles.length ∧
    (S2.removeParticle 0.5).particles.length + 1 = S2.particles.length := by
  have hne : S2.particles ≠ [] := by
    show [pA] ≠ []
    exact List.cons_ne_nil pA []
  have h := (thm_C9_removeParticle S2 0.5 (by norm_num) (by norm_num)).2 hne
  exact ⟨⟨by norm_num, by norm_num, hne⟩, h.1, h.2.1⟩

/-! ## C10: moveAll preserves the particle count -/

theorem foldl_moveStep_length (sys : ParticleSystem) (dt : ℝ) (scattering : Bool) :
    ∀ (l : List ℕ) (ps : List Particle),
    (l.foldl (moveStep sys dt scattering) ps).length = ps.length := by
  intro l
  induction l with
  | nil => intro ps; rfl
  | cons i t ih =>
    intro ps
    rw [List.foldl_cons, ih]
    unfold moveStep
    exact List.length_set ps i _

theorem getD_markForRemove (ps : List Particle) (i : ℕ)
    (h : ∀ p ∈ ps, p.markForRemove = false) :
    (ps.getD i default).markForRemove = false := by
  by_cases hi : i < ps.length
  · rw [List.getD_eq_getElem ps default hi]
    exact h _ (List.getElem_mem hi)
  · rw [List.getD_eq_default ps default (le_of_not_lt hi)]
    rfl

theorem foldl_moveStep_flags (sys : ParticleSystem) (dt : ℝ) (scattering : Bool) :
    ∀ (l : List ℕ) (ps : List Particle),
    (∀ p ∈ ps, p.markForRemove = false) →
    ∀ p ∈ l.foldl (moveStep sys dt scattering) ps, p.markForRemove = false := by
  intro l
  induction l with
  | nil => intro ps h; exact h
  | cons i t ih =>
    intro ps h
    rw [List.foldl_cons]
    apply ih
    intro p hp
    unfold moveStep at hp
    rcases List.mem_or_eq_of_mem_set hp with h1 | h2
    · exact h p h1
    · rw [h2, Particle.move_markForRemove]
      exact getD_markForRemove ps i h

/-- C10: `moveAll` never changes the number of particles: the flocking
`Particle.move` carries `markForRemove` through unchanged (it is only ever
initialized to `false`), so in any state whose particles all have the flag
unset — every state reachable through the public API — the deferred-removal
filter removes nothing, `numParticles()` is unchanged, and the flag stays
unset on every particle. -/
theorem thm_C10_moveAll_count (sys : ParticleSystem) (deltaTime r : ℝ)
    (hflags : ∀ p ∈ sys.particles, p.markForRemove = false) :
    (sys.moveAll deltaTime r).numParticles = sys.numParticles ∧
    (∀ p ∈ (sys.moveAll deltaTime r).particles, p.markForRemove = false) := by
  have hmoved : ∀ p ∈ moveLoop
      { sys with
          intervalTimer := (scatterUpdate sys.intervalTimer
            (deltaTime / 1000 * 0.75) sys.scatterChance r sys.scattering).1,
          scattering := (scatterUpdate sys.intervalTimer
            (deltaTime / 1000 * 0.75) sys.scatterChance r sys.scattering).2 }
      (deltaTime / 1000 * 0.75 * sys.timeScale)
      (scatterUpdate sys.intervalTimer (deltaTime / 1000 * 0.75)
        sys.scatterChance r sys.scattering).2 sys.particles,
      p.markForRemove = false :=
    foldl_moveStep_flags _ _ _ _ sys.particles hflags
  have hfilter : ∀ (l : List Particle), (∀ p ∈ l, p.markForRemove = false) →
      l.filter (fun p => !p.markForRemove) = l := by
    intro l hl
    apply List.filter_eq_self.mpr
    intro p hp
    rw [hl p hp]
    rfl
  constructor
  · show ((moveLoop _ _ _ sys.particles).filter (fun p => !p.markForRemove)).length
      = sys.particles.length
    rw [hfilter _ hmoved]
    exact foldl_moveStep_length _ _ _ _ sys.particles
  · intro p hp
    have : p ∈ moveLoop _ _ _ sys.particles := List.mem_of_mem_filter hp
    exact hmoved p this

/-- Witness for C10: the one-particle system `S2` still has one particle
after `moveAll`. -/
theorem wit_C10_moveAll_count :
    (∀ p ∈ S2.particles, p.markForRemove = false) ∧
    (S2.moveAll 1000 0).numParticles = S2.numParticles := by
  have hflags : ∀ p ∈ S2.particles, p.markForRemove = false := by
    intro p hp
    have : p = pA := by simpa [S2] using hp
    rw [this]
    rfl
  exact ⟨hflags, (thm_C10_moveAll_count S2 1000 0 hflags).1⟩
